import Mathlib

/-!
Shallow embedding of the limosen-pylon transfer-ledger core
(`transfer.service.ts`, `utils/sheetsFormatting.ts`, `d1.service.ts`,
`notification.service.ts`) and proofs about the spec claims.

Spreadsheet cells are modelled by `SheetValue`; JavaScript runtime values that
may also be `undefined` are modelled by `JsVal`.  The master ledger sheet is a
list of data rows (sheet rows 2..); the header row is modelled separately for
the migration routine.  Remote HTTP machinery (auth token exchange, fetch) is
not modelled; every operation is a function from the sheet state to a new
sheet state plus an optional thrown error message, mirroring the source's
read-guard-write structure.
-/

/-- A spreadsheet cell value (`type SheetValue = string | number | boolean | null`).
Numbers are modelled as rationals. -/
inductive SheetValue where
  | str (s : String)
  | num (q : Rat)
  | boolean (b : Bool)
  | null
deriving DecidableEq, Repr

/-- JavaScript truthiness of a `SheetValue` ("" , 0, false, null are falsy). -/
def jsTruthy : SheetValue → Bool
  | .str s => decide (s ≠ "")
  | .num q => decide (q ≠ 0)
  | .boolean b => b
  | .null => false

/-- Models the `v ?? ""` applied to every cell in `rowToTransfer`
(null/undefined replaced by the empty string; the subsequent `as string`
is a TypeScript cast with no runtime effect, so other values pass through). -/
def svOrEmpty (v : SheetValue) : SheetValue :=
  match v with
  | .null => .str ""
  | v => v

/-- Count of decimal digits value (helper for JS `Number` string parsing). -/
def digitsVal (cs : List Char) : Nat :=
  cs.foldl (fun a c => a * 10 + (c.toNat - 48)) 0

/-- JS `Number(s)` for a string, restricted to plain decimal forms
(optional sign, digits, optional fraction); `none` encodes NaN.
Exponent/hex/Infinity forms are not modelled: every string this codebase
feeds to `Number` is either empty or a plain decimal rendering. -/
def parseJsNumber (s : String) : Option Rat :=
  let t := s.trim
  if t = "" then some 0
  else
    let cs := t.data
    let sgn : Int := match cs with
      | '-' :: _ => -1
      | _ => 1
    let body : List Char := match cs with
      | '-' :: r => r
      | '+' :: r => r
      | r => r
    let ip := body.takeWhile (fun c => c ≠ '.')
    let rest := body.dropWhile (fun c => c ≠ '.')
    let fp := rest.drop 1
    if ip.all Char.isDigit && fp.all Char.isDigit && (!ip.isEmpty || !fp.isEmpty) then
      some (sgn * ((digitsVal ip : Rat) + (digitsVal fp : Rat) / ((10 : Rat) ^ fp.length)))
    else
      none

/-- JS `Number(v)` on a cell value; `none` encodes NaN. -/
def jsNumber : SheetValue → Option Rat
  | .num q => some q
  | .boolean b => some (if b then 1 else 0)
  | .null => some 0
  | .str s => parseJsNumber s

/-- JS `String(v)` on a cell value.  Non-integral rationals are rendered as
`num/den`, an approximation of JS decimal formatting; the source only ever
compares such strings against fixed non-numeric keywords or `""`, which this
rendering never produces. -/
def svToString : SheetValue → String
  | .str s => s
  | .num q => if q.den = 1 then toString q.num else toString q.num ++ "/" ++ toString q.den
  | .boolean b => if b then "true" else "false"
  | .null => "null"

/-- A JavaScript runtime value that may be `undefined` (beyond `SheetValue`). -/
inductive JsVal where
  | undef
  | sv (v : SheetValue)
deriving DecidableEq, Repr

/-- JS `String(v)`/template-literal rendering of a `JsVal`. -/
def jsValToString : JsVal → String
  | .undef => "undefined"
  | .sv v => svToString v

/-- The `TransferState` union type. -/
inductive TransferState where
  | pending
  | confirmed
  | complete
  | canceled
  | terminated
deriving DecidableEq, Repr

/-- The string carried by each `TransferState` member. -/
def TransferState.toStr : TransferState → String
  | .pending => "pending"
  | .confirmed => "confirmed"
  | .complete => "complete"
  | .canceled => "canceled"
  | .terminated => "terminated"

/-- The `TransferRow` interface as typed in the source: the record shape the
service constructs and passes to `transferToMasterRow`. -/
structure TransferRow where
  transferId : String
  customerId : String
  customerName : Option String
  rideDateISO : String
  rideTime : String
  pickup : String
  dropoff : String
  roomOrName : Option String
  vehicle : Option String
  amountEUR : Option Rat
  payment : Option String
  driverId : Option String
  driverName : Option String
  state : TransferState
  requestedAtISO : String
deriving DecidableEq, Repr

/-- Canonical 15-column master header (A..O). -/
def MASTER_HEADERS : List String :=
  ["transferId", "customerId", "customerName", "rideDateISO", "rideTime",
   "pickup", "dropoff", "roomOrName", "vehicle", "amountEUR", "payment",
   "driverId", "driverName", "state", "requestedAtISO"]

def MASTER_TITLE : String := "AllRequests"

/-- The runtime value of the record `rowToTransfer` returns.  Every field that
the destructuring binds from `row.map((v) => (v ?? "") as string)` holds a
`SheetValue` at runtime (the `as string` cast performs no conversion), so those
fields are modelled as `JsVal`; `amountEUR` is `number | undefined` and
`driverId`/`driverName` are `string | undefined` (`x || undefined`). -/
structure DecodedRow where
  transferId : JsVal
  customerId : JsVal
  customerName : JsVal
  rideDateISO : JsVal
  rideTime : JsVal
  pickup : JsVal
  dropoff : JsVal
  roomOrName : JsVal
  vehicle : JsVal
  amountEUR : Option Rat
  payment : JsVal
  driverId : JsVal
  driverName : JsVal
  state : JsVal
  requestedAtISO : JsVal
deriving DecidableEq, Repr

/-- `rowToTransfer` (transfer.service.ts, codec decode): a missing or too-short
row yields `none`; otherwise the 15 destructured cells are packed into the
record.  `amountEUR ? Number(amountEUR) : undefined` is modelled with NaN
(unparsable string) collapsed into `none`; no value reachable from
`transferToMasterRow` hits that branch. -/
def rowToTransfer (row : List SheetValue) : Option DecodedRow :=
  if row.length < MASTER_HEADERS.length then none
  else
    let cell := fun i => svOrEmpty (row.getD i .null)
    some {
      transferId := .sv (cell 0)
      customerId := .sv (cell 1)
      customerName := .sv (cell 2)
      rideDateISO := .sv (cell 3)
      rideTime := .sv (cell 4)
      pickup := .sv (cell 5)
      dropoff := .sv (cell 6)
      roomOrName := .sv (cell 7)
      vehicle := .sv (cell 8)
      amountEUR := if jsTruthy (cell 9) then jsNumber (cell 9) else none
      payment := .sv (cell 10)
      driverId := if jsTruthy (cell 11) then .sv (cell 11) else .undef
      driverName := if jsTruthy (cell 12) then .sv (cell 12) else .undef
      state := .sv (cell 13)
      requestedAtISO := .sv (cell 14) }

/-- `x ?? ""` on an optional string field, as a cell. -/
def optStr (o : Option String) : SheetValue := .str (o.getD "")

/-- `transferToMasterRow` (transfer.service.ts, codec encode). -/
def transferToMasterRow (t : TransferRow) : List SheetValue :=
  [ .str t.transferId,
    .str t.customerId,
    optStr t.customerName,
    .str t.rideDateISO,
    .str t.rideTime,
    .str t.pickup,
    .str t.dropoff,
    optStr t.roomOrName,
    optStr t.vehicle,
    (match t.amountEUR with | some q => .num q | none => .str ""),
    optStr t.payment,
    optStr t.driverId,
    optStr t.driverName,
    .str t.state.toStr,
    .str t.requestedAtISO ]

/-- An optional string as the JS value the spec's round-trip predicts:
present fields keep their value, absent fields decode as `undefined`. -/
def optJs : Option String → JsVal
  | none => .undef
  | some s => .sv (.str s)

/-- Follows the claim's words (spec round-trip property): decoding the encoded
row yields a record equal to the input, with every absent optional field
decoded as `undefined` (never the empty string) and `amountEUR` preserved. -/
def specDecodedOfTransfer (t : TransferRow) : DecodedRow :=
  { transferId := .sv (.str t.transferId)
    customerId := .sv (.str t.customerId)
    customerName := optJs t.customerName
    rideDateISO := .sv (.str t.rideDateISO)
    rideTime := .sv (.str t.rideTime)
    pickup := .sv (.str t.pickup)
    dropoff := .sv (.str t.dropoff)
    roomOrName := optJs t.roomOrName
    vehicle := optJs t.vehicle
    amountEUR := t.amountEUR
    payment := optJs t.payment
    driverId := optJs t.driverId
    driverName := optJs t.driverName
    state := .sv (.str t.state.toStr)
    requestedAtISO := .sv (.str t.requestedAtISO) }

/-- What decoding the encoded row actually produces (read off from the two
codec functions): absent `customerName`/`roomOrName`/`vehicle`/`payment`
decode as the empty string, absent-or-empty `driverId`/`driverName` decode as
`undefined`, and a zero or absent `amountEUR` decodes as `undefined`. -/
def codeDecodedOfTransfer (t : TransferRow) : DecodedRow :=
  { transferId := .sv (.str t.transferId)
    customerId := .sv (.str t.customerId)
    customerName := .sv (.str (t.customerName.getD ""))
    rideDateISO := .sv (.str t.rideDateISO)
    rideTime := .sv (.str t.rideTime)
    pickup := .sv (.str t.pickup)
    dropoff := .sv (.str t.dropoff)
    roomOrName := .sv (.str (t.roomOrName.getD ""))
    vehicle := .sv (.str (t.vehicle.getD ""))
    amountEUR := match t.amountEUR with
      | some q => if q = 0 then none else some q
      | none => none
    payment := .sv (.str (t.payment.getD ""))
    driverId := match t.driverId with
      | some s => if s = "" then .undef else .sv (.str s)
      | none => .undef
    driverName := match t.driverName with
      | some s => if s = "" then .undef else .sv (.str s)
      | none => .undef
    state := .sv (.str t.state.toStr)
    requestedAtISO := .sv (.str t.requestedAtISO) }

/-! ## Master ledger sheet model -/

/-- One stored sheet row (the cells that have been written to it). -/
abbrev MasterRow := List SheetValue

/-- The master ledger's data rows (sheet rows 2..); the header row is modelled
separately (`migrateMasterIfNeeded`).  `ensureMaster`, which only touches the
header row when it is already canonical, is modelled as the identity on data
rows. -/
abbrev Master := List MasterRow

/-- Reading a single grid cell: cells beyond the stored row are empty. -/
def cellAt (r : MasterRow) (j : Nat) : SheetValue := r.getD j .null

/-- A cell holding neither a value nor text (what the values API omits from
the tail of a returned row). -/
def isEmptyCell : SheetValue → Bool
  | .null => true
  | .str s => s.isEmpty
  | _ => false

/-- The values API returns each row with trailing empty cells removed. -/
def trimRow (r : MasterRow) : MasterRow :=
  (r.reverse.dropWhile isEmptyCell).reverse

/-- `valuesGet` of the 15-cell range `A{n}:O{n}` for data row index `i`
(0-based into `Master`): the stored row clipped to the range, trailing empty
cells trimmed. -/
def readMasterRow (m : Master) (i : Nat) : MasterRow :=
  trimRow ((m.getD i []).take MASTER_HEADERS.length)

/-- `findMasterRowIndexByTransferId`: scan the identity column `A2:A` for a
cell strictly equal (`===`) to the transferId; the source returns the sheet
row number `i + 2`. -/
def findMasterRowIndexByTransferId (m : Master) (tid : String) : Option Nat :=
  (m.findIdx? (fun r => cellAt r 0 == .str tid)).map (· + 2)

/-- The `{ rowIdx, row }` pair `getMasterRowWithIndex` resolves. -/
structure RowWithIndex where
  rowIdx : Option Nat
  row : Option DecodedRow
deriving DecidableEq, Repr

/-- `getMasterRowWithIndex`: locate the row by transferId, re-read it, decode.
(`values?.[0] ? rowToTransfer(values[0]) : null`: an entirely empty row reads
back as no values, and `rowToTransfer` of the empty list is `none` as well.) -/
def getMasterRowWithIndex (m : Master) (tid : String) : RowWithIndex :=
  match findMasterRowIndexByTransferId m tid with
  | none => ⟨none, none⟩
  | some rr => ⟨some rr, rowToTransfer (readMasterRow m (rr - 2))⟩

/-- Pad a stored row with empty cells up to length `n`. -/
def padToLen (r : MasterRow) (n : Nat) : MasterRow :=
  r ++ List.replicate (n - r.length) .null

/-- Overwrite the cells `start .. start + vs.length - 1` of a row
(`valuesUpdate` on a single-row range); cells before `start` that did not
exist yet materialise as empty grid cells. -/
def setCellsAt (r : MasterRow) (start : Nat) (vs : List SheetValue) : MasterRow :=
  let p := padToLen r (start + vs.length)
  p.take start ++ vs ++ p.drop (start + vs.length)

/-- `valuesUpdate` on the range starting at column index `startCol` of sheet
row `sheetRow` (1-based; data row `sheetRow - 2`). -/
def updateRowRange (m : Master) (sheetRow : Nat) (startCol : Nat)
    (vs : List SheetValue) : Master :=
  let i := sheetRow - 2
  let padded := m ++ List.replicate (i + 1 - m.length) []
  padded.set i (setCellsAt (padded.getD i []) startCol vs)

/-- Result of one lifecycle operation on the master ledger: the sheet content
afterwards and the thrown error message, if any. -/
structure MasterStep where
  master : Master
  error : Option String
deriving DecidableEq, Repr

/-- `/^\d{2}:\d{2}$/.test rideTime`. -/
def validRideTime (s : String) : Bool :=
  match s.data with
  | [a, b, c, d, e] => a.isDigit && b.isDigit && c = ':' && d.isDigit && e.isDigit
  | _ => false

/-- `TransferService.createTransfer`.  `dateValid` stands for
`validator.isISO8601(rideDateISO)` (third-party library, not part of this
repository); `displayName` for the identity-provider lookup
`tryGetUserDisplayName(customerId)`; `tid` and `requestedAtISO` for the
generated `newTransferId()` and `new Date().toISOString()`.  On success the
encoded row is appended after the last data row (`valuesAppend` on `A:A`). -/
def createTransfer (m : Master) (dateValid : Bool) (displayName : Option String)
    (tid requestedAtISO : String) (customerId rideDateISO rideTime pickup dropoff : String)
    (roomOrName vehicle : Option String) (amountEUR : Option Rat)
    (payment : Option String) : MasterStep :=
  if !dateValid then ⟨m, some "Invalid rideDateISO"⟩
  else if !validRideTime rideTime then ⟨m, some "Invalid rideTime"⟩
  else if customerId = "" then ⟨m, some "customerId required"⟩
  else
    let row : TransferRow :=
      { transferId := tid
        customerId := customerId
        customerName := displayName
        rideDateISO := rideDateISO
        rideTime := rideTime
        pickup := pickup
        dropoff := dropoff
        roomOrName := roomOrName
        vehicle := vehicle
        amountEUR := amountEUR
        payment := payment
        driverId := some ""
        driverName := some ""
        state := .pending
        requestedAtISO := requestedAtISO }
    ⟨m ++ [transferToMasterRow row], none⟩

/-- `TransferService.assignDriver`.  `driverFound` stands for the success of
`UserService.getZitadelUserById(driverUserId)` and `driverName` for
`(await tryGetUserDisplayName(driverUserId)) ?? ""` (identity provider, not
part of this repository).  On success writes `L{row}:M{row}`. -/
def assignDriver (m : Master) (tid driverUserId : String) (driverFound : Bool)
    (driverName : String) : MasterStep :=
  if driverUserId = "" then ⟨m, some "driverUserId required"⟩
  else if !driverFound then ⟨m, some "Driver user not found"⟩
  else
    match findMasterRowIndexByTransferId m tid with
    | none => ⟨m, some "transferId not found"⟩
    | some rr => ⟨updateRowRange m rr 11 [.str driverUserId, .str driverName], none⟩

/-- `TransferService.markConfirmed`: guard `state === "pending"`, then write
`"confirmed"` into `N{row}`.  (The source checks `!rowIdx || !row`; a found
`rowIdx` is the sheet row `i + 2 ≥ 2` and hence never the falsy `0`.) -/
def markConfirmed (m : Master) (tid : String) : MasterStep :=
  let r := getMasterRowWithIndex m tid
  match r.rowIdx, r.row with
  | some rr, some row =>
    if row.state ≠ .sv (.str "pending") then
      ⟨m, some "Only pending transfers can be confirmed"⟩
    else
      ⟨updateRowRange m rr 13 [.str "confirmed"], none⟩
  | _, _ => ⟨m, some "transferId not found"⟩

/-- The literal the source assigns in place of the authenticated subject:
`const userId = "346402675442587254"//auth.sub as string;`. -/
def hardcodedCancelUserId : String := "346402675442587254"

/-- `TransferService.cancelTransfer`.  `callerSub` is the request's
authenticated subject (`auth.sub`); the source reads `auth` from the context
but compares the row's owner against the hardcoded constant instead, so
`callerSub` does not occur in the body. -/
def cancelTransfer (m : Master) (callerSub : Option String) (tid : String) : MasterStep :=
  let userId := hardcodedCancelUserId
  if userId = "" then ⟨m, some "Anonymous"⟩
  else
    let r := getMasterRowWithIndex m tid
    match r.rowIdx, r.row with
    | some rr, some row =>
      if row.customerId ≠ .sv (.str userId) then ⟨m, some "Forbidden"⟩
      else if row.state ≠ .sv (.str "pending") then
        ⟨m, some "Only pending transfers can be canceled"⟩
      else
        ⟨updateRowRange m rr 13 [.str "canceled"], none⟩
    | _, _ => ⟨m, some "transferId not found"⟩

/-- `TransferService.terminateTransfer`: any non-complete state may be
terminated. -/
def terminateTransfer (m : Master) (tid : String) : MasterStep :=
  let r := getMasterRowWithIndex m tid
  match r.rowIdx, r.row with
  | some rr, some row =>
    if row.state = .sv (.str "complete") then
      ⟨m, some "Cannot terminate a completed transfer"⟩
    else
      ⟨updateRowRange m rr 13 [.str "terminated"], none⟩
  | _, _ => ⟨m, some "transferId not found"⟩

/-! ## Monthly statement sheets and markCompleted -/

/-- Locale-dependent formula argument separator (`getFormulaArgSep`: derived
once per request from the spreadsheet's locale and cached). -/
inductive ArgSep where
  | comma
  | semi
deriving DecidableEq, Repr

def ArgSep.ch : ArgSep → String
  | .comma => ","
  | .semi => ";"

/-- Environment configuration the completed-transfer path reads
(`SHEETS_WEBAPP_URL` and the spreadsheet locale's separator). -/
structure Env where
  sheetsWebAppUrl : Option String
  argSep : ArgSep
deriving DecidableEq, Repr

/-- External post-processing performed after a statement write.
`appsScript` marks a call of the `SHEETS_WEBAPP_URL` hook
(`callAppsScriptForSheet`); `localRefresh` marks an invocation of the
in-repository resync helpers (`sortMonthlySheetChronologically`,
`refreshMonthlyTotals`, `enforceNumberFormatsForRows`, transfer.service.ts
lines 769-1140), which have no call sites in the source. -/
inductive Post where
  | appsScript (sheetTitle : String)
  | localRefresh (sheetTitle : String)
deriving DecidableEq, Repr

/-- `callAppsScriptForSheet`: when `SHEETS_WEBAPP_URL` is unset it warns and
returns without doing anything; otherwise it GETs the hook (best-effort, any
fetch error is swallowed). -/
def callAppsScriptForSheet (env : Env) (sheetTitle : String) : List Post :=
  match env.sheetsWebAppUrl with
  | none => []
  | some _ => [.appsScript sheetTitle]

/-- A whole sheet tab's stored cell grid (row-major, row 1 at index 0). -/
abbrev Grid := List (List SheetValue)

/-- The spreadsheet's non-master tabs, keyed by title in creation order.
Monthly titles always start with `"USR_"`, so they never collide with the
master tab, which the model stores separately. -/
abbrev MonthlySheets := List (String × Grid)

def lookupSheet (s : MonthlySheets) (title : String) : Option Grid :=
  (s.find? (fun p => p.1 == title)).map (·.2)

def setSheet (s : MonthlySheets) (title : String) (g : Grid) : MonthlySheets :=
  if (s.find? (fun p => p.1 == title)).isSome then
    s.map (fun p => if p.1 == title then (p.1, g) else p)
  else
    s ++ [(title, g)]

/-- `ensureSheet`: add an empty tab if no tab has this title. -/
def ensureSheet (s : MonthlySheets) (title : String) : MonthlySheets :=
  if (s.find? (fun p => p.1 == title)).isSome then s else s ++ [(title, [])]

/-- Write `vs` into the cells of (0-based) row `row0` starting at column
`col0` (`valuesUpdate` on a single-row range of the tab). -/
def gridSetCells (g : Grid) (row0 col0 : Nat) (vs : List SheetValue) : Grid :=
  let padded := g ++ List.replicate (row0 + 1 - g.length) []
  padded.set row0 (setCellsAt (padded.getD row0 []) col0 vs)

/-- Insert one blank row at 0-based index `idx`
(`insertDimension ROWS startIndex idx endIndex idx+1`); inserting below the
stored rows leaves the stored grid unchanged (blank among blanks). -/
def insertRowAt (g : Grid) (idx : Nat) : Grid :=
  if g.length ≤ idx then g else g.take idx ++ [[]] ++ g.drop idx

/-- `monthKeyFromISO`: `dateISO.slice(0, 7)`. -/
def monthKeyFromISO (dateISO : String) : String := dateISO.take 7

/-- `monthSheetTitle`. -/
def monthSheetTitle (userId yyyymm : String) : String := s!"USR_{userId}_{yyyymm}"

def germanMonthNames : List String :=
  ["JÄNNER", "FEBRUAR", "MÄRZ", "APRIL", "MAI", "JUNI", "JULI", "AUGUST",
   "SEPTEMBER", "OKTOBER", "NOVEMBER", "DEZEMBER"]

/-- `germanMonthLabel`: `names[Number(mStr) - 1]` with an out-of-range or
non-numeric month rendering as `undefined`, and the year component rendered
from the split string. -/
def germanMonthLabel (yyyymm : String) : String :=
  let comps := yyyymm.splitOn "-"
  let yStr := comps.getD 0 ""
  let mStr := comps.getD 1 ""
  let name := match mStr.toNat? with
    | some m => if m = 0 then "undefined" else germanMonthNames.getD (m - 1) "undefined"
    | none => "undefined"
  s!"{name} {yStr}"

def MONTH_HEADERS_VISIBLE : List String :=
  ["Nr.", "Datum", "Uhrzeit", "Abholort", "Zielort", "Zimmer/Name", "Wagen",
   "Betrag", "Bezahlung"]

def MONTH_TOTAL_COLUMNS : Nat := 9

/-- `xlookupExpr` (utils/sheetsFormatting.ts). -/
def xlookupExpr (returnColLetter : String) (sep : ArgSep) (masterTitle : String) : String :=
  let key := if sep = .semi then "INDEX($J:$J;ROW())" else "INDEX($J:$J,ROW())"
  let a := sep.ch
  s!"XLOOKUP({key}{a}{masterTitle}!A:A{a}{masterTitle}!{returnColLetter}:{returnColLetter})"

/-- `qSelText`. -/
def qSelText (masterCol : String) (sep : ArgSep) (masterTitle : String) : String :=
  let key := if sep = .semi then "INDEX($J:$J;ROW())" else "INDEX($J:$J,ROW())"
  let x := xlookupExpr masterCol sep masterTitle
  if sep = .semi then
    s!"=IF({key}=\"\";\"\";IFERROR({x};\"\"))"
  else
    s!"=IF({key}=\"\",\"\",IFERROR({x},\"\"))"

/-- `qSelNumber` (rounded to 2 decimals). -/
def qSelNumber (masterCol : String) (sep : ArgSep) (masterTitle : String) : String :=
  let key := if sep = .semi then "INDEX($J:$J;ROW())" else "INDEX($J:$J,ROW())"
  let x := xlookupExpr masterCol sep masterTitle
  if sep = .semi then
    s!"=IF({key}=\"\";\"\";IFERROR(ROUND(N({x});2);\"\"))"
  else
    s!"=IF({key}=\"\",\"\",IFERROR(ROUND(N({x}),2),\"\"))"

/-- `qSelDate`. -/
def qSelDate (masterCol : String) (sep : ArgSep) (masterTitle : String) : String :=
  let key := if sep = .semi then "INDEX($J:$J;ROW())" else "INDEX($J:$J,ROW())"
  let x := xlookupExpr masterCol sep masterTitle
  if sep = .semi then
    s!"=IF({key}=\"\";\"\";IFERROR(IF(ISNUMBER({x});{x};DATE(VALUE(LEFT({x};4));VALUE(MID({x};6;2));VALUE(RIGHT({x};2))));\"\"))"
  else
    s!"=IF({key}=\"\",\"\",IFERROR(IF(ISNUMBER({x}),{x},DATE(VALUE(LEFT({x},4)),VALUE(MID({x},6,2)),VALUE(RIGHT({x},2)))),\"\"))"

/-- `qSelTime`. -/
def qSelTime (masterCol : String) (sep : ArgSep) (masterTitle : String) : String :=
  let key := if sep = .semi then "INDEX($J:$J;ROW())" else "INDEX($J:$J,ROW())"
  let x := xlookupExpr masterCol sep masterTitle
  if sep = .semi then
    s!"=IF({key}=\"\";\"\";IFERROR(IF(ISNUMBER({x});{x};TIME(VALUE(LEFT({x};2));VALUE(MID({x};4;2));0));\"\"))"
  else
    s!"=IF({key}=\"\",\"\",IFERROR(IF(ISNUMBER({x}),{x},TIME(VALUE(LEFT({x},2)),VALUE(MID({x},4,2)),0)),\"\"))"

/-- `monthlyRowFormulas_SQL`: one monthly statement row (A..J) as formulas
against the master sheet, keyed by the hidden transferId in column J. -/
def monthlyRowFormulas_SQL (transferId : String) (argSep : ArgSep)
    (masterTitle : String) : List SheetValue :=
  [ .str "",
    .str (qSelDate "D" argSep masterTitle),
    .str (qSelTime "E" argSep masterTitle),
    .str (qSelText "F" argSep masterTitle),
    .str (qSelText "G" argSep masterTitle),
    .str (qSelText "H" argSep masterTitle),
    .str (qSelText "I" argSep masterTitle),
    .str (qSelNumber "J" argSep masterTitle),
    .str (qSelText "K" argSep masterTitle),
    .str transferId ]

/-- The hidden key column J read from sheet row 4 down (`{title}!J4:J`),
with the trailing run of empty cells trimmed the way the values API trims an
open-ended range. -/
def colJvals (g : Grid) : List SheetValue :=
  ((((g.drop 3).map (fun r => r.getD 9 .null)).reverse).dropWhile isEmptyCell).reverse

/-- `findMonthlyRowIndexByTransferId`: first row at or below sheet row 4 whose
hidden key `String(cell ?? "")` equals the transferId; returns the sheet row
number `4 + i`. -/
def findMonthlyRowIndexByTransferId (g : Grid) (tid : String) : Option Nat :=
  ((colJvals g).findIdx? (fun v => svToString (svOrEmpty v) == tid)).map (· + 4)

/-- `ensureMonthlyForUser` (values-level): ensure the per-customer-month tab
exists (wiping it first when `wipe`), rewrite the 3-row header block (title
line, customer line, column headers — the third row only when not already
present), and return the updated tabs plus the title.
`displayName` stands for `tryGetUserDisplayName(userId)`;
`styleMonthlySheetBase` only changes formatting, never cell values, and is
not modelled. -/
def ensureMonthlyForUser (monthly : MonthlySheets) (displayName : Option String)
    (userId yyyymm : String) (wipe : Bool) : MonthlySheets × String :=
  let title := monthSheetTitle userId yyyymm
  let monthly1 := ensureSheet monthly title
  let monthly2 := if wipe then setSheet monthly1 title [] else monthly1
  let g := (lookupSheet monthly2 title).getD []
  let header1 := s!"ABRECHNUNG: {germanMonthLabel yyyymm}"
  let nameCell := displayName.getD ""
  let row2 : List SheetValue :=
    [.str nameCell, .str "", .str "", .str "", .str "", .str "",
     .str "Kundennummer:", .str userId, .str ""]
  let existRow3 := trimRow ((g.getD 2 []).take 10)
  let hasHeader3 := decide (3 ≤ g.length) && decide (MONTH_TOTAL_COLUMNS ≤ existRow3.length)
  let g1 := gridSetCells g 0 0 [.str header1]
  let g2 := gridSetCells g1 1 0 row2
  let g3 := if hasHeader3 then g2 else gridSetCells g2 2 0 (MONTH_HEADERS_VISIBLE.map .str)
  (setSheet monthly2 title g3, title)

/-- Combined spreadsheet state: the master ledger's data rows and the derived
monthly tabs. -/
structure St where
  master : Master
  monthly : MonthlySheets
deriving DecidableEq, Repr

/-- Result of `markCompleted`: the spreadsheet afterwards, the thrown error if
any, and the external post-processing that ran. -/
structure StepResult where
  st : St
  error : Option String
  post : List Post
deriving DecidableEq, Repr

/-- `TransferService.markCompleted`: guard `state ∈ {pending, confirmed}`,
write `"complete"` into `N{row}`, ensure the customer's monthly tab, then
either leave an already-present statement row to the Apps Script hook or
count the populated hidden keys, insert one blank row, write the formula row,
and call the hook.  `displayName` stands for the identity-provider display
name lookup inside `ensureMonthlyForUser`.  The decoded `rideDateISO` must be
a string for `.slice` (any other cell value would throw a TypeError). -/
def markCompleted (env : Env) (displayName : Option String) (st : St)
    (tid : String) : StepResult :=
  let r := getMasterRowWithIndex st.master tid
  match r.rowIdx, r.row with
  | some rr, some row =>
    if row.state ≠ .sv (.str "pending") ∧ row.state ≠ .sv (.str "confirmed") then
      ⟨st, some "Only pending or confirmed transfers can be completed", []⟩
    else
      let master1 := updateRowRange st.master rr 13 [.str "complete"]
      match row.rideDateISO with
      | .sv (.str rd) =>
        let yyyymm := monthKeyFromISO rd
        let custStr := jsValToString row.customerId
        let em := ensureMonthlyForUser st.monthly displayName custStr yyyymm false
        let monthly1 := em.1
        let title := em.2
        let g := (lookupSheet monthly1 title).getD []
        match findMonthlyRowIndexByTransferId g tid with
        | some _ => ⟨⟨master1, monthly1⟩, none, callAppsScriptForSheet env title⟩
        | none =>
          let currentCount :=
            ((colJvals g).filter (fun v => svToString (svOrEmpty v) != "")).length
          let nextIdx := currentCount + 1
          let insertAtRow := 3 + nextIdx
          let g1 := insertRowAt g (insertAtRow - 1)
          let vals := (monthlyRowFormulas_SQL tid env.argSep MASTER_TITLE).set 0 (.num nextIdx)
          let g2 := gridSetCells g1 (insertAtRow - 1) 0 vals
          ⟨⟨master1, setSheet monthly1 title g2⟩, none, callAppsScriptForSheet env title⟩
      | _ => ⟨⟨master1, st.monthly⟩, some "TypeError: rideDateISO.slice is not a function", []⟩
  | _, _ => ⟨st, some "transferId not found", []⟩

/-! ## Legacy header migration -/

/-- `String(header[idx] ?? "")` on the locally captured header array.  The
source reads the slice `A1:Z1`, which covers every index it inspects (1, 11
and 12). -/
def hdrGet (header : List SheetValue) (i : Nat) : String :=
  svToString (svOrEmpty (header.getD i .null))

/-- Insert one blank column at 0-based index `idx` into a single stored row
(`insertDimension COLUMNS`); a row shorter than `idx` is unaffected. -/
def insertColAt (r : List SheetValue) (idx : Nat) : List SheetValue :=
  if r.length ≤ idx then r else r.take idx ++ [SheetValue.null] ++ r.drop idx

/-- The header after `migrateMasterIfNeeded`'s three conditional in-place
patches (rename B1, rename L1, insert column M and write `M1:O1`), before its
final unconditional rewrite of `A1:O1`.  All three conditions are evaluated
against the header array captured by the initial `A1:Z1` read — the in-place
`setCell` writes do not update that local array. -/
def migratePatchedHeader (header : List SheetValue) : List SheetValue :=
  let h1 := if hdrGet header 1 = "userId" then setCellsAt header 1 [.str "customerId"] else header
  let h2 := if hdrGet header 11 = "driver" then setCellsAt h1 11 [.str "driverId"] else h1
  let colM := hdrGet header 12
  if colM = "state" ∨ colM = "" then
    setCellsAt (insertColAt h2 12) 12 [.str "driverName", .str "state", .str "requestedAtISO"]
  else h2

/-- `migrateMasterIfNeeded`, restricted to its effect on the header row
(its column insertion also shifts data rows; the claims below are about the
header content): the conditional patches followed by the unconditional
rewrite of `A1:O1` to the canonical headers.  Returns the header afterwards
and whether the structural `insertDimension` ran. -/
def migrateMasterIfNeeded (header : List SheetValue) : List SheetValue × Bool :=
  (setCellsAt (migratePatchedHeader header) 0 (MASTER_HEADERS.map .str),
   decide (hdrGet header 12 = "state" ∨ hdrGet header 12 = ""))

/-- The canonical header row (what `ensureMaster` writes on a fresh sheet). -/
def canonicalHeaderRow : List SheetValue := MASTER_HEADERS.map .str

/-! ## Lifecycle operation syntax (for the state-machine invariant) -/

/-- One invocation of a lifecycle operation, with the values obtained from
outside the spreadsheet (generated ids, identity-provider lookups,
environment) carried as data. -/
inductive TransferOp where
  | create (dateValid : Bool) (displayName : Option String) (tid requestedAtISO : String)
      (customerId rideDateISO rideTime pickup dropoff : String)
      (roomOrName vehicle : Option String) (amountEUR : Option Rat) (payment : Option String)
  | assign (tid driverUserId : String) (driverFound : Bool) (driverName : String)
  | confirm (tid : String)
  | cancel (callerSub : Option String) (tid : String)
  | terminate (tid : String)
  | complete (env : Env) (displayName : Option String) (tid : String)

/-- Apply one lifecycle operation to the spreadsheet; a thrown error leaves
the state as the operation left it (for every operation but the
post-ledger-write failure inside `markCompleted`, that is the state it was
called with). -/
def applyOp (st : St) (o : TransferOp) : St :=
  match o with
  | .create dv dn tid req cid rd rt pu dof ron veh amt pay =>
    ⟨(createTransfer st.master dv dn tid req cid rd rt pu dof ron veh amt pay).master, st.monthly⟩
  | .assign tid duid dfound dname =>
    ⟨(assignDriver st.master tid duid dfound dname).master, st.monthly⟩
  | .confirm tid => ⟨(markConfirmed st.master tid).master, st.monthly⟩
  | .cancel cs tid => ⟨(cancelTransfer st.master cs tid).master, st.monthly⟩
  | .terminate tid => ⟨(terminateTransfer st.master tid).master, st.monthly⟩
  | .complete env dn tid => (markCompleted env dn st tid).st

/-- The state cell (column N, index 13) of ledger data row `i`, `none` when
the row does not exist yet. -/
def stateAt (st : St) (i : Nat) : Option SheetValue :=
  (st.master[i]?).map (fun r => cellAt r 13)

/-- The transitions of the spec's state-machine table (plus staying put and
row creation): pending→confirmed, pending→canceled,
pending-or-confirmed→complete, any non-complete→terminated. -/
def allowedStep (s t : Option SheetValue) : Prop :=
  s = t ∨
  (s = none ∧ t = some (.str "pending")) ∨
  (s = some (.str "pending") ∧ t = some (.str "confirmed")) ∨
  (s = some (.str "pending") ∧ t = some (.str "canceled")) ∨
  ((s = some (.str "pending") ∨ s = some (.str "confirmed")) ∧ t = some (.str "complete")) ∨
  (s ≠ some (.str "complete") ∧ t = some (.str "terminated"))

/-! ## Relational mirror (d1.service.ts) -/

/-- The persisted `Transfer` row of the relational store (prisma model):
nullable columns as `Option`; `requestedAtISO` is `none` when the insert
omitted it and the column default applied. -/
structure D1Transfer where
  transferId : String
  rideDateISO : String
  rideTime : String
  pickup : String
  dropoff : String
  roomOrName : Option String
  vehicle : Option String
  amountEUR : Option Rat
  payment : Option String
  customerId : String
  customerName : Option String
  driverId : Option String
  driverName : Option String
  state : TransferState
  requestedAtISO : Option String
deriving DecidableEq, Repr

/-- `D1TransferInput`: optional/nullable inputs collapsed to `Option` (both
`undefined` and `null` map to a NULL column through `?? null`). -/
structure D1TransferInput where
  transferId : String
  rideDateISO : String
  rideTime : String
  pickup : String
  dropoff : String
  roomOrName : Option String
  vehicle : Option String
  amountEUR : Option Rat
  payment : Option String
  customerId : String
  customerName : Option String
  driverId : Option String
  driverName : Option String
  state : TransferState
  requestedAtISO : String
deriving DecidableEq, Repr

/-- The relational store's `Transfer` table (transferId is the primary key). -/
abbrev D1DB := List D1Transfer

/-- `assertNonEmptyString`: `InvalidInputError` when the trimmed value is
empty (`value.trim().length === 0`, i.e. every character is whitespace); the
error message, if any. -/
def assertNonEmptyString (value label : String) : Option String :=
  if value.data.all (fun c => c.isWhitespace) then some (label ++ " is required") else none

/-- The record both write paths build (`createData`): `?? null` on the
optional fields, `typeof amountEUR === "number"` on the amount, and
`requestedAtISO ? new Date(requestedAtISO) : undefined` (an empty string is
falsy, leaving the column to its database default).  `new Date` parsing is
abstracted to the string it was given. -/
def d1CreateData (data : D1TransferInput) : D1Transfer :=
  { transferId := data.transferId
    rideDateISO := data.rideDateISO
    rideTime := data.rideTime
    pickup := data.pickup
    dropoff := data.dropoff
    roomOrName := data.roomOrName
    vehicle := data.vehicle
    amountEUR := data.amountEUR
    payment := data.payment
    customerId := data.customerId
    customerName := data.customerName
    driverId := data.driverId
    driverName := data.driverName
    state := data.state
    requestedAtISO := if data.requestedAtISO = "" then none else some data.requestedAtISO }

/-- The `updateData` of `upsertD1Transfer` applied to the stored record: every
column is overwritten from the input except `requestedAtISO`, which is only
overridden when the input provides a truthy value. -/
def d1ApplyUpdate (old : D1Transfer) (data : D1TransferInput) : D1Transfer :=
  { transferId := old.transferId
    rideDateISO := data.rideDateISO
    rideTime := data.rideTime
    pickup := data.pickup
    dropoff := data.dropoff
    roomOrName := data.roomOrName
    vehicle := data.vehicle
    amountEUR := data.amountEUR
    payment := data.payment
    customerId := data.customerId
    customerName := data.customerName
    driverId := data.driverId
    driverName := data.driverName
    state := data.state
    requestedAtISO := if data.requestedAtISO = "" then old.requestedAtISO
      else some data.requestedAtISO }

/-- `prisma.transfer.create`: the primary-key constraint rejects a duplicate
`transferId`. -/
def prismaTransferCreate (db : D1DB) (rec : D1Transfer) : Except String D1DB :=
  if db.any (fun r => r.transferId == rec.transferId) then
    .error "Unique constraint failed on the fields: (transferId)"
  else
    .ok (db ++ [rec])

/-- `D1Service.createD1Transfer`: six non-empty-string assertions, then a
plain create (throws if the key already exists). -/
def createD1Transfer (db : D1DB) (data : D1TransferInput) : Except String D1DB :=
  match assertNonEmptyString data.rideDateISO "rideDateISO" with
  | some e => .error e
  | none =>
  match assertNonEmptyString data.rideTime "rideTime" with
  | some e => .error e
  | none =>
  match assertNonEmptyString data.pickup "pickup" with
  | some e => .error e
  | none =>
  match assertNonEmptyString data.dropoff "dropoff" with
  | some e => .error e
  | none =>
  match assertNonEmptyString data.customerId "customerId" with
  | some e => .error e
  | none =>
  match assertNonEmptyString data.transferId "transferId" with
  | some e => .error e
  | none => prismaTransferCreate db (d1CreateData data)

/-- `D1Service.upsertD1Transfer`: only the key is validated; an existing
record is updated in place (`prisma.transfer.upsert`), otherwise the create
payload is inserted. -/
def upsertD1Transfer (db : D1DB) (data : D1TransferInput) : Except String D1DB :=
  match assertNonEmptyString data.transferId "transferId" with
  | some e => .error e
  | none =>
    if db.any (fun r => r.transferId == data.transferId) then
      .ok (db.map (fun r => if r.transferId == data.transferId then d1ApplyUpdate r data else r))
    else
      .ok (db ++ [d1CreateData data])

/-! ## Push subscriptions (notification.service.ts) -/

/-- The stored `keys` object of a web-push subscription. -/
structure PushKeys where
  p256dh : Option String
  auth : Option String
deriving DecidableEq, Repr

/-- A stored `UserPushSubscription` (endpoint plus optional crypto keys). -/
structure PushSubscription where
  endpoint : String
  keys : Option PushKeys
deriving DecidableEq, Repr

/-- `NotificationService.addUserPushSubscription`, at the level of the list
stored in the user's metadata: take the existing list (`?? []` when unset),
drop every entry with the same endpoint (`s && s.endpoint !==
subscription.endpoint`; the storage read/write through `UserService` is the
identity on the list), and append the new subscription. -/
def addUserPushSubscription (existing : Option (List PushSubscription))
    (subscription : PushSubscription) : List PushSubscription :=
  let ex := existing.getD []
  let filtered := ex.filter (fun s => s.endpoint != subscription.endpoint)
  filtered ++ [subscription]

/-! ## Concrete inputs used by counterexamples and witnesses -/

/-- A transfer exercising every optional-field edge at once: absent
`customerName`/`roomOrName`/`vehicle`/`payment`, a present-but-zero
`amountEUR`, a present-but-empty `driverId`, an absent `driverName`. -/
def c4Input : TransferRow :=
  { transferId := "t1", customerId := "c1", customerName := none,
    rideDateISO := "2025-03-10", rideTime := "14:30", pickup := "Hotel X",
    dropoff := "Airport", roomOrName := none, vehicle := none,
    amountEUR := some 0, payment := none, driverId := some "",
    driverName := none, state := .pending,
    requestedAtISO := "2025-03-01T00:00:00.000Z" }

/-- A ledger with one completed transfer `t1`. -/
def c2Master : Master :=
  [[.str "t1", .str "c1", .str "Carol", .str "2025-03-10", .str "14:30",
    .str "Hotel X", .str "Airport", .str "", .str "", .str "", .str "",
    .str "", .str "", .str "complete", .str "2025-03-01T00:00:00.000Z"]]

/-- What `c2Master`'s only row decodes to. -/
def c2Decoded : DecodedRow :=
  { transferId := .sv (.str "t1"), customerId := .sv (.str "c1"),
    customerName := .sv (.str "Carol"), rideDateISO := .sv (.str "2025-03-10"),
    rideTime := .sv (.str "14:30"), pickup := .sv (.str "Hotel X"),
    dropoff := .sv (.str "Airport"), roomOrName := .sv (.str ""),
    vehicle := .sv (.str ""), amountEUR := none, payment := .sv (.str ""),
    driverId := .undef, driverName := .undef, state := .sv (.str "complete"),
    requestedAtISO := .sv (.str "2025-03-01T00:00:00.000Z") }

/-- A ledger whose only transfer is pending and owned by the hardcoded
customer id the source compares against. -/
def c3Master : Master :=
  [[.str "t1", .str "346402675442587254", .str "", .str "2025-03-10",
    .str "14:30", .str "Hotel X", .str "Airport", .str "", .str "", .str "",
    .str "", .str "", .str "", .str "pending", .str "2025-03-01T00:00:00.000Z"]]

/-- A ledger with one pending transfer `t1` owned by customer `c1`. -/
def c6Master : Master :=
  [[.str "t1", .str "c1", .str "Carol", .str "2025-03-10", .str "14:30",
    .str "Hotel X", .str "Airport", .str "", .str "", .str "", .str "",
    .str "", .str "", .str "pending", .str "2025-03-01T00:00:00.000Z"]]

/-- Environment without the external post-processing hook. -/
def c6EnvNoHook : Env := ⟨none, .comma⟩

/-- Environment with the external post-processing hook configured. -/
def c6EnvHook : Env := ⟨some "https://script.example/exec", .comma⟩

/-- Spreadsheet state for the completed-transfer runs: the one-row ledger and
no monthly tabs yet. -/
def c6St : St := ⟨c6Master, []⟩

/-- A stored record in the relational mirror. -/
def c8Rec : D1Transfer :=
  { transferId := "t1", rideDateISO := "2025-03-10", rideTime := "14:30",
    pickup := "Hotel X", dropoff := "Airport", roomOrName := none,
    vehicle := none, amountEUR := none, payment := none, customerId := "c1",
    customerName := none, driverId := none, driverName := none,
    state := .pending, requestedAtISO := some "2025-03-01T00:00:00.000Z" }

/-- An input carrying the same `transferId` as `c8Rec` with changed fields. -/
def c8Input : D1TransferInput :=
  { transferId := "t1", rideDateISO := "2025-03-11", rideTime := "15:30",
    pickup := "Hotel Y", dropoff := "Station", roomOrName := none,
    vehicle := none, amountEUR := some 25, payment := none, customerId := "c1",
    customerName := none, driverId := none, driverName := none,
    state := .confirmed, requestedAtISO := "" }

/-- A stored subscription list that already carries two entries with the same
endpoint. -/
def c10StoredList : List PushSubscription :=
  [⟨"https://push.example/ep1", none⟩,
   ⟨"https://push.example/ep1", some ⟨some "k", some "a"⟩⟩]

/-- A new subscription with a fresh endpoint. -/
def c10NewSub : PushSubscription := ⟨"https://push.example/ep2", none⟩

/-! ## Supporting lemmas -/

theorem cellAt_eq_getElem (r : MasterRow) (j : Nat) :
    cellAt r j = (r[j]?).getD .null := by
  simp [cellAt, List.getD]

theorem getElem?_pad_getD (r : List SheetValue) (k j : Nat) :
    ((r ++ List.replicate k SheetValue.null)[j]?).getD .null = (r[j]?).getD .null := by
  rw [List.getElem?_append]
  split
  · rfl
  · rw [List.getElem?_replicate, List.getElem?_eq_none (by omega)]
    split <;> simp

/-- Reading any cell of a row after `setCellsAt`: positions inside the written
range give the written values, all others are unchanged. -/
theorem cellAt_setCellsAt (r : MasterRow) (start : Nat) (vs : List SheetValue) (j : Nat) :
    cellAt (setCellsAt r start vs) j =
      if start ≤ j ∧ j < start + vs.length then vs.getD (j - start) .null else cellAt r j := by
  have hP : (padToLen r (start + vs.length)).length = max r.length (start + vs.length) := by
    simp [padToLen]
    omega
  have hT : ((padToLen r (start + vs.length)).take start).length = start := by
    rw [List.length_take, hP]
    omega
  have hTV : (List.take start (padToLen r (start + vs.length)) ++ vs).length
      = start + vs.length := by
    rw [List.length_append, hT]
  rw [cellAt_eq_getElem, cellAt_eq_getElem]
  simp only [setCellsAt]
  rw [List.getElem?_append, hTV]
  rcases Nat.lt_or_ge j start with hj | hj
  · rw [if_pos (by omega), if_neg (by omega)]
    rw [List.getElem?_append, hT, if_pos hj]
    rw [List.getElem?_take, if_pos hj]
    simp only [padToLen]
    exact getElem?_pad_getD r _ j
  · rcases Nat.lt_or_ge j (start + vs.length) with hj2 | hj2
    · rw [if_pos hj2, if_pos ⟨hj, hj2⟩]
      rw [List.getElem?_append, hT, if_neg (by omega)]
      exact (List.getD_eq_getElem?_getD vs _ _).symm
    · rw [if_neg (by omega), if_neg (by omega)]
      rw [List.getElem?_drop]
      rw [show start + vs.length + (j - (start + vs.length)) = j from by omega]
      simp only [padToLen]
      exact getElem?_pad_getD r _ j

theorem getD_setCellsAt (r : MasterRow) (start : Nat) (vs : List SheetValue) (j : Nat) :
    (setCellsAt r start vs).getD j .null =
      if start ≤ j ∧ j < start + vs.length then vs.getD (j - start) .null
      else r.getD j .null :=
  cellAt_setCellsAt r start vs j

theorem trimRow_prefix (l : MasterRow) : trimRow l <+: l := by
  unfold trimRow
  have h : l.reverse.dropWhile isEmptyCell <:+ l.reverse := List.dropWhile_suffix _
  have h2 := List.reverse_prefix.mpr h
  simpa using h2

theorem rowToTransfer_length (row : List SheetValue) (d : DecodedRow)
    (h : rowToTransfer row = some d) : MASTER_HEADERS.length ≤ row.length := by
  by_contra hc
  simp only [rowToTransfer, if_pos (by omega : row.length < MASTER_HEADERS.length)] at h
  exact Option.noConfusion h

/-- A successful decode pins the record to the cells of the row. -/
theorem rowToTransfer_some_eq (row : List SheetValue) (d : DecodedRow)
    (h : rowToTransfer row = some d) :
    d = { transferId := .sv (svOrEmpty (row.getD 0 .null))
          customerId := .sv (svOrEmpty (row.getD 1 .null))
          customerName := .sv (svOrEmpty (row.getD 2 .null))
          rideDateISO := .sv (svOrEmpty (row.getD 3 .null))
          rideTime := .sv (svOrEmpty (row.getD 4 .null))
          pickup := .sv (svOrEmpty (row.getD 5 .null))
          dropoff := .sv (svOrEmpty (row.getD 6 .null))
          roomOrName := .sv (svOrEmpty (row.getD 7 .null))
          vehicle := .sv (svOrEmpty (row.getD 8 .null))
          amountEUR := if jsTruthy (svOrEmpty (row.getD 9 .null))
            then jsNumber (svOrEmpty (row.getD 9 .null)) else none
          payment := .sv (svOrEmpty (row.getD 10 .null))
          driverId := if jsTruthy (svOrEmpty (row.getD 11 .null))
            then .sv (svOrEmpty (row.getD 11 .null)) else .undef
          driverName := if jsTruthy (svOrEmpty (row.getD 12 .null))
            then .sv (svOrEmpty (row.getD 12 .null)) else .undef
          state := .sv (svOrEmpty (row.getD 13 .null))
          requestedAtISO := .sv (svOrEmpty (row.getD 14 .null)) } := by
  unfold rowToTransfer at h
  split at h
  · exact Option.noConfusion h
  · simp only [Option.some.injEq] at h
    exact h.symm

/-- A row that decodes was returned whole by the API read: the trim removed
nothing from the 15-cell range and the stored row covers it. -/
theorem readMasterRow_eq_take (m : Master) (i : Nat) (d : DecodedRow)
    (h : rowToTransfer (readMasterRow m i) = some d) :
    readMasterRow m i = (m.getD i []).take MASTER_HEADERS.length ∧
      MASTER_HEADERS.length ≤ (m.getD i []).length := by
  have hlen := rowToTransfer_length _ _ h
  have hpre : readMasterRow m i <+: ((m.getD i []).take MASTER_HEADERS.length) :=
    trimRow_prefix _
  have hle : ((m.getD i []).take MASTER_HEADERS.length).length ≤ MASTER_HEADERS.length := by
    simp
  have hlen2 : (readMasterRow m i).length ≤ ((m.getD i []).take MASTER_HEADERS.length).length :=
    hpre.length_le
  have heq := hpre.eq_of_length (by omega)
  refine ⟨heq, ?_⟩
  have : ((m.getD i []).take MASTER_HEADERS.length).length = MASTER_HEADERS.length := by omega
  simp only [List.length_take] at this
  omega

/-- Cells of the decoded 15-cell read agree with the stored row. -/
theorem readMasterRow_getD (m : Master) (i : Nat) (d : DecodedRow)
    (h : rowToTransfer (readMasterRow m i) = some d) (j : Nat)
    (hj : j < MASTER_HEADERS.length) :
    (readMasterRow m i).getD j .null = (m.getD i []).getD j .null := by
  obtain ⟨heq, _⟩ := readMasterRow_eq_take m i d h
  rw [heq, List.getD_eq_getElem?_getD, List.getElem?_take, if_pos hj,
    ← List.getD_eq_getElem?_getD]

theorem svOrEmpty_eq_str (v : SheetValue) (s : String) (hs : s ≠ "") :
    svOrEmpty v = .str s ↔ v = .str s := by
  cases v <;> simp [svOrEmpty] <;> intro hc <;> exact hs hc.symm

theorem findMaster_some (m : Master) (tid : String) (rr : Nat)
    (h : findMasterRowIndexByTransferId m tid = some rr) :
    ∃ i, rr = i + 2 ∧ i < m.length ∧ cellAt (m.getD i []) 0 = .str tid := by
  unfold findMasterRowIndexByTransferId at h
  obtain ⟨i, hfi, hrr⟩ := Option.map_eq_some'.mp h
  obtain ⟨hlt, hp, _⟩ := List.findIdx?_eq_some_iff_getElem.mp hfi
  refine ⟨i, hrr.symm, hlt, ?_⟩
  have hg : m.getD i [] = m[i] := List.getD_eq_getElem m [] hlt
  rw [hg]
  exact eq_of_beq hp

theorem updateRowRange_getElem?_ne (m : Master) (i c : Nat) (vs : List SheetValue)
    (k : Nat) (hi : i < m.length) (hk : k ≠ i) :
    (updateRowRange m (i + 2) c vs)[k]? = m[k]? := by
  unfold updateRowRange
  simp only [Nat.add_sub_cancel]
  rw [show i + 1 - m.length = 0 from by omega]
  simp only [List.replicate_zero, List.append_nil]
  exact List.getElem?_set_ne (Ne.symm hk)

theorem updateRowRange_getD_self (m : Master) (i c : Nat) (vs : List SheetValue)
    (hi : i < m.length) :
    (updateRowRange m (i + 2) c vs).getD i [] = setCellsAt (m.getD i []) c vs := by
  unfold updateRowRange
  simp only [Nat.add_sub_cancel]
  rw [show i + 1 - m.length = 0 from by omega]
  simp only [List.replicate_zero, List.append_nil]
  rw [List.getD_eq_getElem?_getD, List.getElem?_set_self (by simpa using hi)]
  rfl

theorem updateRowRange_length (m : Master) (i c : Nat) (vs : List SheetValue)
    (hi : i < m.length) :
    (updateRowRange m (i + 2) c vs).length = m.length := by
  unfold updateRowRange
  simp only [Nat.add_sub_cancel]
  rw [show i + 1 - m.length = 0 from by omega]
  simp

/-! ## Claim theorems -/

/-- C4 (counterexample): the round-trip claim fails as stated.  For a transfer
with absent `customerName`/`roomOrName`/`vehicle`/`payment`, an
`amountEUR` of 0 and an empty-string `driverId`, decoding the encoded row does
not return the record with all absent optionals as `undefined`: the absent
text optionals come back as the empty string, and the present zero amount and
empty driverId come back as `undefined`. -/
theorem c4_roundtrip_counterexample :
    rowToTransfer (transferToMasterRow c4Input) ≠ some (specDecodedOfTransfer c4Input) := by
  decide

/-- C4 (amended): encoding a `Transfer` to a row and decoding it back yields
the record with all required fields intact, where absent
`customerName`/`roomOrName`/`vehicle`/`payment` decode as the empty string
(not `undefined`), absent-or-empty `driverId`/`driverName` decode as
`undefined`, and `amountEUR` survives unless it was absent or `0`, which
decodes as `undefined`. -/
theorem c4_roundtrip_amended (t : TransferRow) :
    rowToTransfer (transferToMasterRow t) = some (codeDecodedOfTransfer t) := by
  rcases t with ⟨tid, cid, cn, rd, rt, pu, dof, ron, veh, amt, pay, did, dnm, stt, req⟩
  rcases amt with _ | q <;> rcases did with _ | ds <;> rcases dnm with _ | ns <;>
    simp [rowToTransfer, transferToMasterRow, codeDecodedOfTransfer, optStr, svOrEmpty,
      jsTruthy, jsNumber, MASTER_HEADERS, List.getD]

theorem setCellsAt_zero (g vs : List SheetValue) :
    setCellsAt g 0 vs = vs ++ (padToLen g vs.length).drop vs.length := by
  simp [setCellsAt]

theorem setCellsAt_zero_idem (g vs : List SheetValue) :
    setCellsAt (setCellsAt g 0 vs) 0 vs = setCellsAt g 0 vs := by
  rw [setCellsAt_zero g vs, setCellsAt_zero]
  have h1 : vs.length - (vs ++ (padToLen g vs.length).drop vs.length).length = 0 := by
    simp
  rw [padToLen, h1, List.replicate_zero, List.append_nil]
  congr 1
  exact List.drop_left vs _

theorem migrate_of_written (g : List SheetValue) :
    migrateMasterIfNeeded (setCellsAt g 0 canonicalHeaderRow) =
      (setCellsAt g 0 canonicalHeaderRow, false) := by
  have hlen : canonicalHeaderRow.length = 15 := by decide
  have hget : ∀ i : Nat, i < 15 →
      (setCellsAt g 0 canonicalHeaderRow).getD i .null = canonicalHeaderRow.getD i .null := by
    intro i hi
    rw [getD_setCellsAt, if_pos ⟨Nat.zero_le i, by omega⟩]
    simp
  have h1 : hdrGet (setCellsAt g 0 canonicalHeaderRow) 1 = "customerId" := by
    unfold hdrGet
    rw [hget 1 (by norm_num)]
    decide
  have h11 : hdrGet (setCellsAt g 0 canonicalHeaderRow) 11 = "driverId" := by
    unfold hdrGet
    rw [hget 11 (by norm_num)]
    decide
  have h12 : hdrGet (setCellsAt g 0 canonicalHeaderRow) 12 = "driverName" := by
    unfold hdrGet
    rw [hget 12 (by norm_num)]
    decide
  simp only [migrateMasterIfNeeded, migratePatchedHeader, h1, h11, h12]
  simp [show MASTER_HEADERS.map SheetValue.str = canonicalHeaderRow from rfl,
    setCellsAt_zero_idem]

/-- C5: the legacy-header migration is idempotent on the header row — running
it against the already-canonical 15-column header performs no structural
change (no column insertion) and leaves the header as it was, and a second
run on any migrated header reproduces it exactly with no insertion. -/
theorem c5_migration_idempotent :
    migrateMasterIfNeeded canonicalHeaderRow = (canonicalHeaderRow, false) ∧
    ∀ header : List SheetValue,
      migrateMasterIfNeeded (migrateMasterIfNeeded header).1 =
        ((migrateMasterIfNeeded header).1, false) := by
  constructor
  · decide
  · intro header
    rw [show (migrateMasterIfNeeded header).1 =
      setCellsAt (migratePatchedHeader header) 0 canonicalHeaderRow from rfl]
    exact migrate_of_written _

/-- C10 (counterexample): the claim fails as stated when the stored list
already contains two subscriptions with the same (old) endpoint — after
adding a subscription with a fresh endpoint, both old duplicates survive, so
the stored list does contain two subscriptions sharing an endpoint. -/
theorem c10_dedup_counterexample :
    ¬ ((addUserPushSubscription (some c10StoredList) c10NewSub).countP
          (fun s => s.endpoint == c10NewSub.endpoint) = 1 ∧
       (∀ s ∈ c10StoredList, s.endpoint ≠ c10NewSub.endpoint →
          s ∈ addUserPushSubscription (some c10StoredList) c10NewSub) ∧
       (addUserPushSubscription (some c10StoredList) c10NewSub).Pairwise
          (fun a b => a.endpoint ≠ b.endpoint)) := by
  decide

/-- C10 (amended): after `addUserPushSubscription`, exactly one stored entry
carries the new subscription's endpoint (the new subscription, stored last),
every existing entry with a different endpoint is preserved, and — provided
the previously stored endpoints were pairwise distinct — no two stored
subscriptions share an endpoint afterwards. -/
theorem c10_dedup_amended (existing : Option (List PushSubscription))
    (sub : PushSubscription) :
    (addUserPushSubscription existing sub).countP
      (fun s => s.endpoint == sub.endpoint) = 1 ∧
    (addUserPushSubscription existing sub).getLast? = some sub ∧
    (∀ s ∈ existing.getD [], s.endpoint ≠ sub.endpoint →
      s ∈ addUserPushSubscription existing sub) ∧
    ((existing.getD []).Pairwise (fun a b => a.endpoint ≠ b.endpoint) →
      (addUserPushSubscription existing sub).Pairwise
        (fun a b => a.endpoint ≠ b.endpoint)) := by
  unfold addUserPushSubscription
  refine ⟨?_, ?_, ?_, ?_⟩
  · simp [List.countP_append]
  · simp
  · intro s hs hne
    simp only [List.mem_append]
    left
    exact List.mem_filter.mpr ⟨hs, by simpa using hne⟩
  · intro hp
    rw [List.pairwise_append]
    refine ⟨hp.filter _, List.pairwise_singleton _ _, ?_⟩
    intro a ha b hb
    have h1 := List.of_mem_filter ha
    simp only [List.mem_singleton] at hb
    subst hb
    simpa using h1

/-- C10 (amended) witness at a concrete input. -/
theorem c10_dedup_amended_witness :
    (addUserPushSubscription (some [⟨"https://push.example/ep1", none⟩]) c10NewSub).countP
        (fun s => s.endpoint == c10NewSub.endpoint) = 1 ∧
    (addUserPushSubscription (some [⟨"https://push.example/ep1", none⟩]) c10NewSub).getLast?
        = some c10NewSub ∧
    (∀ s ∈ (some [(⟨"https://push.example/ep1", none⟩ : PushSubscription)]).getD [],
      s.endpoint ≠ c10NewSub.endpoint →
      s ∈ addUserPushSubscription (some [⟨"https://push.example/ep1", none⟩]) c10NewSub) ∧
    (((some [(⟨"https://push.example/ep1", none⟩ : PushSubscription)]).getD []).Pairwise
        (fun a b => a.endpoint ≠ b.endpoint) →
      (addUserPushSubscription (some [⟨"https://push.example/ep1", none⟩]) c10NewSub).Pairwise
        (fun a b => a.endpoint ≠ b.endpoint)) :=
  c10_dedup_amended (some [⟨"https://push.example/ep1", none⟩]) c10NewSub

/-- C8: in the relational mirror, creating a transfer whose `transferId` is
already stored fails on the key constraint, while upserting the same input
succeeds by updating the stored record in place. -/
theorem c8_create_vs_upsert (db : D1DB) (data : D1TransferInput)
    (h1 : assertNonEmptyString data.rideDateISO "rideDateISO" = none)
    (h2 : assertNonEmptyString data.rideTime "rideTime" = none)
    (h3 : assertNonEmptyString data.pickup "pickup" = none)
    (h4 : assertNonEmptyString data.dropoff "dropoff" = none)
    (h5 : assertNonEmptyString data.customerId "customerId" = none)
    (h6 : assertNonEmptyString data.transferId "transferId" = none)
    (hkey : db.any (fun r => r.transferId == data.transferId) = true) :
    createD1Transfer db data =
      .error "Unique constraint failed on the fields: (transferId)" ∧
    upsertD1Transfer db data =
      .ok (db.map (fun r =>
        if r.transferId == data.transferId then d1ApplyUpdate r data else r)) := by
  have hkey2 : ∃ x ∈ db, x.transferId = data.transferId := by simpa using hkey
  constructor
  · simp [createD1Transfer, h1, h2, h3, h4, h5, h6, prismaTransferCreate, d1CreateData, hkey2]
  · simp [upsertD1Transfer, h6, hkey]

/-- C8 witness at a concrete input. -/
theorem c8_create_vs_upsert_witness :
    (assertNonEmptyString c8Input.rideDateISO "rideDateISO" = none ∧
     assertNonEmptyString c8Input.rideTime "rideTime" = none ∧
     assertNonEmptyString c8Input.pickup "pickup" = none ∧
     assertNonEmptyString c8Input.dropoff "dropoff" = none ∧
     assertNonEmptyString c8Input.customerId "customerId" = none ∧
     assertNonEmptyString c8Input.transferId "transferId" = none ∧
     [c8Rec].any (fun r => r.transferId == c8Input.transferId) = true) ∧
    (createD1Transfer [c8Rec] c8Input =
      .error "Unique constraint failed on the fields: (transferId)" ∧
     upsertD1Transfer [c8Rec] c8Input =
      .ok ([c8Rec].map (fun r =>
        if r.transferId == c8Input.transferId then d1ApplyUpdate r c8Input else r))) :=
  ⟨⟨by decide, by decide, by decide, by decide, by decide, by decide, by decide⟩,
   c8_create_vs_upsert [c8Rec] c8Input (by decide) (by decide) (by decide) (by decide)
     (by decide) (by decide) (by decide)⟩

/-- C2: for a transfer whose current ledger state is not `pending` (found and
decodable in the ledger), `markConfirmed` throws the guard error
"Only pending transfers can be confirmed" and returns with the ledger exactly
as it was — no write happens. -/
theorem c2_markConfirmed_guard (m : Master) (tid : String) (rr : Nat) (d : DecodedRow)
    (hfound : getMasterRowWithIndex m tid = ⟨some rr, some d⟩)
    (hstate : d.state ≠ .sv (.str "pending")) :
    markConfirmed m tid = ⟨m, some "Only pending transfers can be confirmed"⟩ := by
  simp only [markConfirmed, hfound]
  simp [hstate]

/-- C2 witness: confirming the completed transfer of `c2Master` fails with the
guard error and leaves the ledger unchanged. -/
theorem c2_markConfirmed_guard_witness :
    (getMasterRowWithIndex c2Master "t1" = ⟨some 2, some c2Decoded⟩ ∧
     c2Decoded.state ≠ .sv (.str "pending")) ∧
    markConfirmed c2Master "t1" = ⟨c2Master, some "Only pending transfers can be confirmed"⟩ :=
  ⟨⟨by decide, by decide⟩,
   c2_markConfirmed_guard c2Master "t1" 2 c2Decoded (by decide) (by decide)⟩

/-- C3 (code bug): `cancelTransfer` ignores the authenticated caller.  With a
caller id `"u1"` different from the pending record's owner
`"346402675442587254"`, the call does not fail with the Forbidden error the
claim requires — it succeeds and cancels the transfer, because the source
compares the owner against the hardcoded constant instead of `auth.sub`.
The result is the same for every caller. -/
theorem c3_cancelTransfer_hardcoded_caller :
    (cancelTransfer c3Master (some "u1") "t1").error = none ∧
    cellAt ((cancelTransfer c3Master (some "u1") "t1").master.getD 0 []) 13 =
      .str "canceled" ∧
    (∀ caller : Option String,
      cancelTransfer c3Master caller "t1" = cancelTransfer c3Master (some "u1") "t1") :=
  ⟨by decide, by decide, fun _ => rfl⟩

/-- C7: every lifecycle transition invoked with a `transferId` absent from
the ledger's identity column fails with the "not found" error and leaves the
spreadsheet untouched; decoding an absent (empty) or too-short row yields
`none` rather than an error. -/
theorem c7_not_found (st : St) (env : Env) (dn cs : Option String)
    (tid duid dname : String)
    (hnf : findMasterRowIndexByTransferId st.master tid = none)
    (hduid : duid ≠ "") :
    assignDriver st.master tid duid true dname = ⟨st.master, some "transferId not found"⟩ ∧
    markConfirmed st.master tid = ⟨st.master, some "transferId not found"⟩ ∧
    cancelTransfer st.master cs tid = ⟨st.master, some "transferId not found"⟩ ∧
    terminateTransfer st.master tid = ⟨st.master, some "transferId not found"⟩ ∧
    markCompleted env dn st tid = ⟨st, some "transferId not found", []⟩ ∧
    (∀ row : List SheetValue, row.length < MASTER_HEADERS.length →
      rowToTransfer row = none) := by
  have hG : getMasterRowWithIndex st.master tid = ⟨none, none⟩ := by
    simp [getMasterRowWithIndex, hnf]
  refine ⟨?_, ?_, ?_, ?_, ?_, ?_⟩
  · simp [assignDriver, hduid, hnf]
  · simp [markConfirmed, hG]
  · simp [cancelTransfer, hardcodedCancelUserId, hG]
  · simp [terminateTransfer, hG]
  · simp [markCompleted, hG]
  · intro row h
    simp [rowToTransfer, h]

/-- C7 witness: on an empty ledger, every transition reports "not found" and
a 3-cell row decodes to `none`. -/
theorem c7_not_found_witness :
    (findMasterRowIndexByTransferId (⟨[], []⟩ : St).master "tX" = none ∧
     ("d1" : String) ≠ "") ∧
    (assignDriver (⟨[], []⟩ : St).master "tX" "d1" true "Drv" =
      ⟨(⟨[], []⟩ : St).master, some "transferId not found"⟩ ∧
     markConfirmed (⟨[], []⟩ : St).master "tX" =
      ⟨(⟨[], []⟩ : St).master, some "transferId not found"⟩ ∧
     cancelTransfer (⟨[], []⟩ : St).master none "tX" =
      ⟨(⟨[], []⟩ : St).master, some "transferId not found"⟩ ∧
     terminateTransfer (⟨[], []⟩ : St).master "tX" =
      ⟨(⟨[], []⟩ : St).master, some "transferId not found"⟩ ∧
     markCompleted c6EnvNoHook none (⟨[], []⟩ : St) "tX" =
      ⟨(⟨[], []⟩ : St), some "transferId not found", []⟩ ∧
     (∀ row : List SheetValue, row.length < MASTER_HEADERS.length →
       rowToTransfer row = none)) :=
  ⟨⟨by decide, by decide⟩,
   c7_not_found ⟨[], []⟩ c6EnvNoHook none none "tX" "d1" "Drv" (by decide) (by decide)⟩

/-- C9: for an existing transfer, `assignDriver` writes only the driverId and
driverName cells (columns L and M, indices 11 and 12) of the found row: every
other row of the ledger is untouched, every other cell of the found row —
including the state cell — is unchanged, and on the successful path columns
L and M receive the driver's id and display name. -/
theorem c9_assignDriver_frame (m : Master) (tid duid dname : String) (dfound : Bool)
    (i : Nat) (hfind : findMasterRowIndexByTransferId m tid = some (i + 2)) :
    (∀ k, k ≠ i → (assignDriver m tid duid dfound dname).master[k]? = m[k]?) ∧
    (∀ j, j ≠ 11 → j ≠ 12 →
      cellAt ((assignDriver m tid duid dfound dname).master.getD i []) j =
        cellAt (m.getD i []) j) ∧
    (duid ≠ "" → dfound = true →
      cellAt ((assignDriver m tid duid dfound dname).master.getD i []) 11 = .str duid ∧
      cellAt ((assignDriver m tid duid dfound dname).master.getD i []) 12 = .str dname) := by
  obtain ⟨i0, hi0, hlt, _⟩ := findMaster_some m tid (i + 2) hfind
  have hii : i0 = i := by omega
  subst hii
  by_cases hd : duid = ""
  · have hres : assignDriver m tid duid dfound dname = ⟨m, some "driverUserId required"⟩ := by
      simp [assignDriver, hd]
    rw [hres]
    exact ⟨fun k _ => rfl, fun j _ _ => rfl, fun hne _ => absurd hd hne⟩
  · cases dfound with
    | false =>
      have hres : assignDriver m tid duid false dname = ⟨m, some "Driver user not found"⟩ := by
        simp [assignDriver, hd]
      rw [hres]
      exact ⟨fun k _ => rfl, fun j _ _ => rfl, fun _ hft => Bool.noConfusion hft⟩
    | true =>
      have hres : assignDriver m tid duid true dname =
          ⟨updateRowRange m (i0 + 2) 11 [.str duid, .str dname], none⟩ := by
        simp [assignDriver, hd, hfind]
      rw [hres]
      refine ⟨?_, ?_, ?_⟩
      · intro k hk
        exact updateRowRange_getElem?_ne m i0 11 _ k hlt hk
      · intro j h11 h12
        rw [updateRowRange_getD_self m i0 11 _ hlt, cellAt_setCellsAt,
          if_neg (by simp; omega)]
      · intro _ _
        constructor
        · rw [updateRowRange_getD_self m i0 11 _ hlt, cellAt_setCellsAt,
            if_pos (by simp)]
          rfl
        · rw [updateRowRange_getD_self m i0 11 _ hlt, cellAt_setCellsAt,
            if_pos (by simp)]
          rfl

/-- C9 witness at a concrete input: assigning a driver on `c6Master`. -/
theorem c9_assignDriver_frame_witness :
    (findMasterRowIndexByTransferId c6Master "t1" = some (0 + 2)) ∧
    ((∀ k, k ≠ 0 → (assignDriver c6Master "t1" "d7" true "Drv").master[k]? = c6Master[k]?) ∧
     (∀ j, j ≠ 11 → j ≠ 12 →
       cellAt ((assignDriver c6Master "t1" "d7" true "Drv").master.getD 0 []) j =
         cellAt (c6Master.getD 0 []) j) ∧
     (("d7" : String) ≠ "" → true = true →
       cellAt ((assignDriver c6Master "t1" "d7" true "Drv").master.getD 0 []) 11 = .str "d7" ∧
       cellAt ((assignDriver c6Master "t1" "d7" true "Drv").master.getD 0 []) 12 = .str "Drv")) :=
  ⟨by decide, c9_assignDriver_frame c6Master "t1" "d7" "Drv" true 0 (by decide)⟩

/-- Every terminating run of `markCompleted` that does not throw ends by
delegating post-processing to `callAppsScriptForSheet` — and to nothing
else. -/
theorem markCompleted_post_of_ok (env : Env) (dn : Option String) (st : St) (tid : String)
    (hok : (markCompleted env dn st tid).error = none) :
    ∃ title, (markCompleted env dn st tid).post = callAppsScriptForSheet env title := by
  simp only [markCompleted] at hok ⊢
  generalize getMasterRowWithIndex st.master tid = R at hok ⊢
  rcases R with ⟨ridx, rowo⟩
  rcases ridx with _ | rr
  · exact absurd hok (by simp)
  rcases rowo with _ | row
  · exact absurd hok (by simp)
  simp only at hok ⊢
  by_cases hg : row.state ≠ .sv (.str "pending") ∧ row.state ≠ .sv (.str "confirmed")
  · rw [if_pos hg] at hok
    exact absurd hok (by simp)
  · rw [if_neg hg] at hok ⊢
    rcases hD : row.rideDateISO with _ | v
    · rw [hD] at hok
      exact absurd hok (by simp)
    · cases v with
      | str rd =>
        rw [hD] at hok
        dsimp only
        rcases findMonthlyRowIndexByTransferId
            ((lookupSheet (ensureMonthlyForUser st.monthly dn (jsValToString row.customerId)
                (monthKeyFromISO rd) false).1
              (ensureMonthlyForUser st.monthly dn (jsValToString row.customerId)
                (monthKeyFromISO rd) false).2).getD [])
            tid with _ | mr
        · exact ⟨_, rfl⟩
        · exact ⟨_, rfl⟩
      | num q =>
        rw [hD] at hok
        exact absurd hok (by simp)
      | boolean b =>
        rw [hD] at hok
        exact absurd hok (by simp)
      | null =>
        rw [hD] at hok
        exact absurd hok (by simp)

/-- C6 (counterexample): with the external hook not configured, a
`markCompleted` run that inserts a new monthly-statement row performs
neither of the two post-processing paths the claim offers: it does not call
the hook and it does not fall back to the in-process resync — the
post-processing is simply skipped (the run still succeeds and the statement
row for `t1` is inserted at sheet row 4). -/
theorem c6_postprocessing_counterexample :
    (markCompleted c6EnvNoHook none c6St "t1").error = none ∧
    cellAt (((lookupSheet (markCompleted c6EnvNoHook none c6St "t1").st.monthly
      "USR_c1_2025-03").getD []).getD 3 []) 9 = .str "t1" ∧
    (markCompleted c6EnvNoHook none c6St "t1").post = [] ∧
    ¬ ((∃ t, Post.appsScript t ∈ (markCompleted c6EnvNoHook none c6St "t1").post) ∨
       (∃ t, Post.localRefresh t ∈ (markCompleted c6EnvNoHook none c6St "t1").post)) := by
  refine ⟨by decide, by decide, by decide, ?_⟩
  rw [show (markCompleted c6EnvNoHook none c6St "t1").post = [] from by decide]
  rintro (⟨t, ht⟩ | ⟨t, ht⟩) <;> simp at ht

/-- C6 (amended): in every non-throwing `markCompleted` run, the
sorting/renumbering/totals/border refresh is delegated to the external
post-processing hook exactly when it is configured; when it is not
configured, the refresh is skipped entirely — the in-process full-resync
helpers are never invoked by `markCompleted`. -/
theorem c6_postprocessing_amended (env : Env) (dn : Option String) (st : St)
    (tid : String) (hok : (markCompleted env dn st tid).error = none) :
    (∀ t, Post.localRefresh t ∉ (markCompleted env dn st tid).post) ∧
    ((markCompleted env dn st tid).post = [] ↔ env.sheetsWebAppUrl = none) := by
  obtain ⟨title, hpost⟩ := markCompleted_post_of_ok env dn st tid hok
  rw [hpost]
  rcases henv : env.sheetsWebAppUrl with _ | u <;>
    simp [callAppsScriptForSheet, henv]

/-- C6 (amended) witness: a successful run with the hook configured. -/
theorem c6_postprocessing_amended_witness :
    (markCompleted c6EnvHook none c6St "t1").error = none ∧
    ((∀ t, Post.localRefresh t ∉ (markCompleted c6EnvHook none c6St "t1").post) ∧
     ((markCompleted c6EnvHook none c6St "t1").post = [] ↔
       c6EnvHook.sheetsWebAppUrl = none)) :=
  ⟨by decide, c6_postprocessing_amended c6EnvHook none c6St "t1" (by decide)⟩

theorem allowedStep_refl (s : Option SheetValue) : allowedStep s s := Or.inl rfl

/-- A found-and-decoded lookup pins the decoded state to the stored row's
cell N. -/
theorem getMaster_found_state (m : Master) (tid : String) (rr : Nat) (d : DecodedRow)
    (hG : getMasterRowWithIndex m tid = ⟨some rr, some d⟩) :
    ∃ i, rr = i + 2 ∧ i < m.length ∧
      d.state = .sv (svOrEmpty (cellAt (m.getD i []) 13)) := by
  unfold getMasterRowWithIndex at hG
  rcases hf : findMasterRowIndexByTransferId m tid with _ | rr2 <;> rw [hf] at hG
  · exact absurd hG (by simp)
  · obtain ⟨i, hi2, hlt, _⟩ := findMaster_some m tid rr2 hf
    simp only [RowWithIndex.mk.injEq, Option.some.injEq] at hG
    obtain ⟨hrr, hrow⟩ := hG
    refine ⟨i, by omega, hlt, ?_⟩
    have hd := rowToTransfer_some_eq _ _ hrow
    have h13 := readMasterRow_getD m (rr2 - 2) d hrow 13 (by decide)
    have hi : rr2 - 2 = i := by omega
    rw [hi] at hd h13
    rw [hd]
    simp only [h13]
    rfl

theorem stateAt_mk (m : Master) (mon : MonthlySheets) (i : Nat) :
    stateAt ⟨m, mon⟩ i = (m[i]?).map (fun r => cellAt r 13) := rfl

theorem stateAt_some (m : Master) (mon : MonthlySheets) (i : Nat) (hi : i < m.length) :
    stateAt ⟨m, mon⟩ i = some (cellAt (m.getD i []) 13) := by
  rw [stateAt_mk, List.getElem?_eq_getElem hi, List.getD_eq_getElem m [] hi]
  rfl

theorem stateAt_update_self (m : Master) (i : Nat) (hi : i < m.length) (s : String)
    (mon' : MonthlySheets) :
    stateAt ⟨updateRowRange m (i + 2) 13 [.str s], mon'⟩ i = some (.str s) := by
  have hlen := updateRowRange_length m i 13 [.str s] hi
  rw [stateAt_some (updateRowRange m (i + 2) 13 [.str s]) mon' i (by rw [hlen]; exact hi)]
  rw [updateRowRange_getD_self m i 13 [.str s] hi, cellAt_setCellsAt]
  simp

theorem stateAt_update_ne (m : Master) (i : Nat) (hi : i < m.length) (s : String)
    (mon mon' : MonthlySheets) (k : Nat) (hk : k ≠ i) :
    stateAt ⟨updateRowRange m (i + 2) 13 [.str s], mon'⟩ k = stateAt ⟨m, mon⟩ k := by
  rw [stateAt_mk, stateAt_mk, updateRowRange_getElem?_ne m i 13 [.str s] k hi hk]

/-- One guarded state write: when the lookup found and decoded row `rr` and
the decoded state licenses the transition into `s`, every per-row state trace
takes one allowed step. -/
theorem allowedStep_of_guarded_write (m : Master) (mon mon' : MonthlySheets)
    (tid : String) (rr : Nat) (d : DecodedRow) (i : Nat) (s : String)
    (hG : getMasterRowWithIndex m tid = ⟨some rr, some d⟩)
    (htrans : ∀ c13 : SheetValue, d.state = .sv (svOrEmpty c13) →
      allowedStep (some c13) (some (.str s))) :
    allowedStep (stateAt ⟨m, mon⟩ i) (stateAt ⟨updateRowRange m rr 13 [.str s], mon'⟩ i) := by
  obtain ⟨i0, hi0, hlt, hstate⟩ := getMaster_found_state m tid rr d hG
  subst hi0
  by_cases hii : i = i0
  · subst hii
    rw [stateAt_update_self m i hlt s mon', stateAt_some m mon i hlt]
    exact htrans _ hstate
  · rw [stateAt_update_ne m i0 hlt s mon mon' i hii]
    exact allowedStep_refl _

/-- One lifecycle operation moves every row's state cell along an allowed
step (unchanged, created as pending, or one table transition). -/
theorem applyOp_allowedStep (st : St) (o : TransferOp) (i : Nat) :
    allowedStep (stateAt st i) (stateAt (applyOp st o) i) := by
  rcases st with ⟨m, mon⟩
  cases o with
  | create dv dn tid req cid rd rt pu dof ron veh amt pay =>
    simp only [applyOp, createTransfer]
    split
    · exact allowedStep_refl _
    split
    · exact allowedStep_refl _
    split
    · exact allowedStep_refl _
    rcases Nat.lt_trichotomy i m.length with h | h | h
    · left
      rw [stateAt_mk, stateAt_mk, List.getElem?_append, if_pos h]
    · subst h
      right
      left
      constructor
      · rw [stateAt_mk, List.getElem?_eq_none (le_refl _)]
        rfl
      · rw [stateAt_mk, List.getElem?_concat_length]
        rfl
    · left
      rw [stateAt_mk, stateAt_mk, List.getElem?_eq_none (by omega),
        List.getElem?_eq_none (by simp; omega)]
  | assign tid duid dfound dname =>
    simp only [applyOp, assignDriver]
    split
    · exact allowedStep_refl _
    split
    · exact allowedStep_refl _
    rcases hf : findMasterRowIndexByTransferId m tid with _ | rr
    · exact allowedStep_refl _
    · obtain ⟨i0, hi0, hlt, _⟩ := findMaster_some m tid rr hf
      subst hi0
      by_cases hii : i = i0
      · subst hii
        left
        rw [stateAt_some m mon i (by omega),
          stateAt_some _ _ i (by rw [updateRowRange_length m i 11 _ (by omega)]; omega)]
        rw [updateRowRange_getD_self m i 11 _ (by omega)]
        rw [cellAt_setCellsAt, if_neg (by simp)]
      · left
        rw [stateAt_mk, stateAt_mk, updateRowRange_getElem?_ne m i0 11 _ i hlt hii]
  | confirm tid =>
    simp only [applyOp, markConfirmed]
    rcases hG : getMasterRowWithIndex m tid with ⟨ridx, rowo⟩
    rcases ridx with _ | rr
    · exact allowedStep_refl _
    rcases rowo with _ | row
    · exact allowedStep_refl _
    dsimp only
    split
    · exact allowedStep_refl _
    · rename_i hguard
      refine allowedStep_of_guarded_write m mon mon tid rr row i "confirmed" hG ?_
      intro c13 hc
      have hst : row.state = .sv (.str "pending") := not_not.mp hguard
      rw [hst] at hc
      have hco : svOrEmpty c13 = .str "pending" := by
        injection hc.symm
      have hc13 : c13 = .str "pending" :=
        (svOrEmpty_eq_str c13 "pending" (by decide)).mp hco
      subst hc13
      right; right; left
      exact ⟨rfl, rfl⟩
  | cancel cs tid =>
    simp only [applyOp, cancelTransfer]
    rw [if_neg (by decide : ¬(hardcodedCancelUserId = ""))]
    rcases hG : getMasterRowWithIndex m tid with ⟨ridx, rowo⟩
    rcases ridx with _ | rr
    · exact allowedStep_refl _
    rcases rowo with _ | row
    · exact allowedStep_refl _
    dsimp only
    split
    · exact allowedStep_refl _
    split
    · exact allowedStep_refl _
    · rename_i hown hguard
      refine allowedStep_of_guarded_write m mon mon tid rr row i "canceled" hG ?_
      intro c13 hc
      have hst : row.state = .sv (.str "pending") := not_not.mp hguard
      rw [hst] at hc
      have hco : svOrEmpty c13 = .str "pending" := by
        injection hc.symm
      have hc13 : c13 = .str "pending" :=
        (svOrEmpty_eq_str c13 "pending" (by decide)).mp hco
      subst hc13
      right; right; right; left
      exact ⟨rfl, rfl⟩
  | terminate tid =>
    simp only [applyOp, terminateTransfer]
    rcases hG : getMasterRowWithIndex m tid with ⟨ridx, rowo⟩
    rcases ridx with _ | rr
    · exact allowedStep_refl _
    rcases rowo with _ | row
    · exact allowedStep_refl _
    dsimp only
    split
    · exact allowedStep_refl _
    · rename_i hguard
      refine allowedStep_of_guarded_write m mon mon tid rr row i "terminated" hG ?_
      intro c13 hc
      right; right; right; right; right
      refine ⟨?_, rfl⟩
      intro hcomplete
      apply hguard
      rw [hc]
      have : c13 = .str "complete" := Option.some.inj hcomplete
      subst this
      rfl
  | complete env dn tid =>
    simp only [applyOp, markCompleted]
    rcases hG : getMasterRowWithIndex m tid with ⟨ridx, rowo⟩
    rcases ridx with _ | rr
    · exact allowedStep_refl _
    rcases rowo with _ | row
    · exact allowedStep_refl _
    dsimp only
    split
    · exact allowedStep_refl _
    · rename_i hguard
      have htrans : ∀ c13 : SheetValue, row.state = .sv (svOrEmpty c13) →
          allowedStep (some c13) (some (.str "complete")) := by
        intro c13 hc
        right; right; right; right; left
        refine ⟨?_, rfl⟩
        rcases not_and_or.mp hguard with h | h
        · have hst : row.state = .sv (.str "pending") := not_not.mp h
          rw [hst] at hc
          have hco : svOrEmpty c13 = .str "pending" := by
            injection hc.symm
          have hc13 : c13 = .str "pending" :=
            (svOrEmpty_eq_str c13 "pending" (by decide)).mp hco
          subst hc13
          exact Or.inl rfl
        · have hst : row.state = .sv (.str "confirmed") := not_not.mp h
          rw [hst] at hc
          have hco : svOrEmpty c13 = .str "confirmed" := by
            injection hc.symm
          have hc13 : c13 = .str "confirmed" :=
            (svOrEmpty_eq_str c13 "confirmed" (by decide)).mp hco
          subst hc13
          exact Or.inr rfl
      rcases hD : row.rideDateISO with _ | v
      · exact allowedStep_of_guarded_write m mon mon tid rr row i "complete" hG htrans
      · cases v with
        | str rd =>
          dsimp only
          rcases findMonthlyRowIndexByTransferId
              ((lookupSheet (ensureMonthlyForUser mon dn (jsValToString row.customerId)
                  (monthKeyFromISO rd) false).1
                (ensureMonthlyForUser mon dn (jsValToString row.customerId)
                  (monthKeyFromISO rd) false).2).getD [])
              tid with _ | mr
          · exact allowedStep_of_guarded_write m mon _ tid rr row i "complete" hG htrans
          · exact allowedStep_of_guarded_write m mon _ tid rr row i "complete" hG htrans
        | num q =>
          exact allowedStep_of_guarded_write m mon mon tid rr row i "complete" hG htrans
        | boolean b =>
          exact allowedStep_of_guarded_write m mon mon tid rr row i "complete" hG htrans
        | null =>
          exact allowedStep_of_guarded_write m mon mon tid rr row i "complete" hG htrans

theorem scanl_head (f : St → TransferOp → St) (b : St) (l : List TransferOp) :
    (List.scanl f b l).head? = some b := by
  cases l <;> simp [List.scanl_nil, List.scanl_cons]

/-- C1: along every sequence of lifecycle operations, every ledger row's state
cell only ever changes along the transitions of the state-machine table —
each adjacent pair of the per-row state trace is either unchanged, a fresh
`pending` row, pending→confirmed, pending→canceled,
pending-or-confirmed→complete, or non-complete→terminated. -/
theorem c1_state_transitions_follow_table (st : St) (i : Nat) (ops : List TransferOp) :
    List.Chain' allowedStep ((List.scanl applyOp st ops).map (fun s => stateAt s i)) := by
  induction ops generalizing st with
  | nil =>
    rw [List.scanl_nil]
    simp
  | cons o rest ih =>
    rw [List.scanl_cons, List.singleton_append, List.map_cons]
    refine List.chain'_cons'.mpr ⟨?_, ih (applyOp st o)⟩
    intro y hy
    rw [List.head?_map, scanl_head] at hy
    have hy2 : stateAt (applyOp st o) i = y := by simpa using hy
    rw [← hy2]
    exact applyOp_allowedStep st o i
